import Mathlib

/-!
Shallow embedding of the coinledger-parser reconciliation core
(`src/reconciliation/engine.py`, `src/reconciliation/ordinals_detector.py`,
`src/reconciliation/anomaly.py`) together with proofs about the
matching engine, the clustering phase, the pattern classifier and the
anomaly detector.

Modelling conventions:
* Python `float` amounts and thresholds are modelled as exact rationals
  (`Rat`); Python `datetime` timestamps (always UTC in this code base)
  are modelled as integer epoch seconds (`Int`).
* Python lists become Lean `List`s; `pandas` row order is list order and
  a DataFrame row index is the position in the originating list.
* Python dictionaries preserving insertion order become association
  lists.
-/

namespace CoinLedger

/-- `UnifiedTransaction` from `src/models.py`: timestamp (epoch seconds,
UTC), asset symbol, signed amount, fee, identifier (`tx_id`, may be
empty), activity label (`tx_type`), producing source (`"CEX"` or
`"BLOCKCHAIN"`) and the open `metadata` string map. -/
structure Tx where
  timestamp : Int
  asset : String
  amount : Rat
  fee : Rat
  tx_id : String
  tx_type : String
  source : String
  metadata : List (String × String)
deriving Repr, DecidableEq

/-! ## Pattern-detector helpers (`ordinals_detector.py`) -/

/-- `DUST_THRESHOLDS["max"]` = 0.00001 BTC. -/
def dustMax : Rat := 1 / 100000

/-- `is_dust` (`ordinals_detector.py` line 25): `abs(amount) <= DUST_THRESHOLDS["max"]`. -/
def is_dust (amount : Rat) : Bool := |amount| ≤ dustMax

/-- The hexadecimal characters accepted by `get_ordiscan_link`
(`'0123456789abcdefABCDEF'`). -/
def isHexChar (c : Char) : Bool :=
  ("0123456789abcdefABCDEF".toList).contains c

/-- The CEX-synthesized-identifier test of `get_ordiscan_link` line 39:
starts with `XVERSE_`, starts with `CEX_`, or `'_' in tx_id[:20]`. -/
def isSyntheticTxid (tx_id : String) : Bool :=
  (("XVERSE_".toList).isPrefixOf tx_id.toList) ||
  (("CEX_".toList).isPrefixOf tx_id.toList) ||
  ((tx_id.toList.take 20).contains '_')

/-- `get_ordiscan_link` (`ordinals_detector.py` lines 29-46). -/
def get_ordiscan_link (tx_id : String) : Option String :=
  if tx_id = "" then none
  else if isSyntheticTxid tx_id then none
  else if tx_id.toList.length = 64 ∧ tx_id.toList.all isHexChar then
    some ("https://ordiscan.com/tx/" ++ tx_id)
  else none

/-- One correction entry of a suggestion's `corrections` list.  The
Python code builds heterogeneous dictionaries; the union of the keys the
five detectors emit is modelled as one structure, with `none` / `[]` /
`0` standing for an absent key. -/
structure Correction where
  action : String
  tx : Option Tx
  txs : List Tx
  reason : String
  sent_asset : String
  sent_amount : Rat
  received_asset : String
  received_quantity : Nat
  received_amount : Rat
  ordiscan_link : Option String
  transaction : Option Tx
deriving Repr, DecidableEq

/-- A correction dictionary holding only `action`, `tx` and `reason`
(the shape emitted by the IGNORE / CHANGE_TO_FEE branches). -/
def mkSimpleCorrection (action : String) (tx : Tx) (reason : String) : Correction :=
  ⟨action, some tx, [], reason, "", 0, "", 0, 0, none, none⟩

/-- A correction suggestion (`detect_*_pattern` return dictionaries). -/
structure Suggestion where
  pattern : String
  confidence : Rat
  severity : String
  tax_impact : String
  affected_transactions : List Tx
  corrections : List Correction
deriving Repr, DecidableEq

/-- The `withdrawals` partition used by every detector:
`t.tx_type in ['Withdrawal', 'Send']`. -/
def withdrawalsOf (g : List Tx) : List Tx :=
  g.filter (fun t => t.tx_type == "Withdrawal" || t.tx_type == "Send")

/-- The `deposits` partition used by every detector:
`t.tx_type in ['Deposit', 'Receive']`. -/
def depositsOf (g : List Tx) : List Tx :=
  g.filter (fun t => t.tx_type == "Deposit" || t.tx_type == "Receive")

/-- Python truthiness of `tx.tx_id and get_ordiscan_link(tx.tx_id)`:
the link is only computed for a non-empty identifier. -/
def linkOf (tx : Tx) : Option String :=
  if tx.tx_id = "" then none else get_ordiscan_link tx.tx_id

/-- `detect_mint_buy_pattern` (`ordinals_detector.py` lines 75-118). -/
def detect_mint_buy_pattern (tx_group : List Tx) : Option Suggestion :=
  let withdrawals := withdrawalsOf tx_group
  let deposits := depositsOf tx_group
  match withdrawals, deposits with
  | w :: _, [d] =>
    if is_dust d.amount then
      some { pattern := "MINT_BUY", confidence := 9/10, severity := "HIGH",
             tax_impact := "ESTABLISHES_COST_BASIS",
             affected_transactions := tx_group,
             corrections :=
               [ mkSimpleCorrection "IGNORE" d
                   "Dust wrapper for Ordinal/Rune (not taxable income)",
                 ⟨"CHANGE_TO_TRADE", some w, [], "", "BTC", |w.amount|,
                   "ORDINAL/RUNE", 1, 0, linkOf d, some d⟩ ] }
    else none
  | _, _ => none

/-- `detect_bulk_mint_pattern` (`ordinals_detector.py` lines 120-164). -/
def detect_bulk_mint_pattern (tx_group : List Tx) : Option Suggestion :=
  let withdrawals := withdrawalsOf tx_group
  let deposits := depositsOf tx_group
  match withdrawals, deposits with
  | [w], d1 :: d2 :: ds =>
    let deposits := d1 :: d2 :: ds
    if deposits.all (fun d => is_dust d.amount) then
      let blockchain_deposit := (deposits.find? (fun d => d.source == "BLOCKCHAIN")).getD d1
      some { pattern := "BULK_MINT", confidence := 19/20, severity := "HIGH",
             tax_impact := "ESTABLISHES_COST_BASIS",
             affected_transactions := tx_group,
             corrections :=
               (deposits.enum.map (fun p =>
                  mkSimpleCorrection "IGNORE" p.2
                    ("Dust wrapper " ++ toString (p.1 + 1) ++ "/" ++
                     toString deposits.length ++ " for bulk mint"))) ++
               [ ⟨"CHANGE_TO_TRADE", some w, [], "", "BTC", |w.amount|,
                   "ORDINAL/RUNE", deposits.length, 0,
                   linkOf blockchain_deposit, some blockchain_deposit⟩ ] }
    else none
  | _, _ => none

/-- `detect_gas_fee_pattern` (`ordinals_detector.py` lines 166-193). -/
def detect_gas_fee_pattern (tx_group : List Tx) : Option Suggestion :=
  let withdrawals := withdrawalsOf tx_group
  let deposits := depositsOf tx_group
  match withdrawals, deposits with
  | w :: _, [] =>
    if |w.amount| < 1/2000 then
      some { pattern := "GAS_FEE", confidence := 4/5, severity := "LOW",
             tax_impact := "TAX_DEDUCTIBLE",
             affected_transactions := tx_group,
             corrections :=
               [ mkSimpleCorrection "CHANGE_TO_FEE" w
                   "Network cost without asset acquisition - tax deductible expense" ] }
    else none
  | _, _ => none

/-- Truthy lookup in a transaction's `metadata` dictionary: a missing
key and an empty-string value both count as absent (Python falsiness). -/
def metaGet (tx : Tx) (key : String) : Option String :=
  match tx.metadata.lookup key with
  | some v => if v = "" then none else some v
  | none => none

/-- The asset-name derivation inside `detect_sale_pattern`
(`ordinals_detector.py` lines 210-222). -/
def saleAssetName (deposit_tx : Tx) : String :=
  if deposit_tx.metadata = [] then "ORDINAL/RUNE (specify which asset was sold)"
  else match metaGet deposit_tx "inscription_id" with
  | some v => "Ordinal " ++ String.mk (v.toList.take 16) ++ "..."
  | none =>
    match metaGet deposit_tx "rune_name" with
    | some v => v
    | none =>
      if metaGet deposit_tx "asset_type" = some "ORDINAL" then
        "Ordinal (check transaction details)"
      else if metaGet deposit_tx "asset_type" = some "RUNE" then
        "Rune (check transaction details)"
      else "ORDINAL/RUNE (specify which asset was sold)"

/-- `detect_sale_pattern` (`ordinals_detector.py` lines 195-244). -/
def detect_sale_pattern (tx_group : List Tx) : Option Suggestion :=
  let withdrawals := withdrawalsOf tx_group
  let deposits := depositsOf tx_group
  match withdrawals, deposits with
  | [], d :: _ =>
    if is_dust d.amount then none
    else
      some { pattern := "SALE", confidence := 7/10, severity := "HIGH",
             tax_impact := "TAXABLE_INCOME",
             affected_transactions := tx_group,
             corrections :=
               [ ⟨"CHANGE_TO_TRADE", some d, [],
                   "Profit from selling Ordinal/Rune - taxable event",
                   saleAssetName d, 0, "BTC", 0, d.amount, linkOf d, some d⟩ ] }
  | _, _ => none

/-- `detect_self_transfer_pattern` (`ordinals_detector.py` lines 246-276). -/
def detect_self_transfer_pattern (tx_group : List Tx) : Option Suggestion :=
  let withdrawals := withdrawalsOf tx_group
  let deposits := depositsOf tx_group
  match withdrawals, deposits with
  | [w], [d] =>
    if |(|w.amount| - d.amount)| < 1/10000 then
      some { pattern := "SELF_TRANSFER", confidence := 17/20, severity := "MEDIUM",
             tax_impact := "NON_TAXABLE",
             affected_transactions := tx_group,
             corrections :=
               [ ⟨"MERGE_AS_TRANSFER", none, [w, d],
                   "Moving funds between own wallets - not a taxable event",
                   "", 0, "", 0, 0, none, none⟩ ] }
    else none
  | _, _ => none

/-- `detect_patterns` (`ordinals_detector.py` lines 278-313): the five
detectors tried in fixed priority order, first hit wins.  The
`my_wallets` argument is accepted and ignored exactly as in the source
(`detect_self_transfer_pattern` and `detect_sale_pattern` never read
it). -/
def detect_patterns (tx_group : List Tx) (my_wallets : List String) : Option Suggestion :=
  let _ := my_wallets
  match detect_bulk_mint_pattern tx_group with
  | some p => some p
  | none =>
  match detect_mint_buy_pattern tx_group with
  | some p => some p
  | none =>
  match detect_self_transfer_pattern tx_group with
  | some p => some p
  | none =>
  match detect_gas_fee_pattern tx_group with
  | some p => some p
  | none =>
  match detect_sale_pattern tx_group with
  | some p => some p
  | none => none

/-! ## Grouping helpers (`ordinals_detector.py` lines 48-73) and the
clustering phase of `ReconciliationEngine.reconcile_with_corrections`
(`engine.py` lines 31-77). -/

/-- The distinct elements of a list in first-occurrence order — the key
order of a Python `dict` built by insertion. -/
def firstOccur {α : Type} [DecidableEq α] : List α → List α
  | [] => []
  | k :: rest => k :: (firstOccur rest).filter (fun x => x ≠ k)

/-- `group_transactions_by_txid` (`ordinals_detector.py` lines 48-58):
transactions with a non-empty `tx_id`, grouped by it, keys in
first-occurrence order, each group in input order. -/
def group_transactions_by_txid (transactions : List Tx) : List (String × List Tx) :=
  (firstOccur ((transactions.filter (fun t => t.tx_id ≠ "")).map (fun t => t.tx_id))).map
    (fun k => (k, transactions.filter (fun t => t.tx_id == k)))

/-- `group_transactions_by_time` (`ordinals_detector.py` lines 60-73):
bucket transactions by `int(timestamp / (window_minutes * 60))`
(Python `int()` truncates toward zero, hence `Int.tdiv`).  Defined in
the source and imported by the engine, but never invoked by
`reconcile_with_corrections`. -/
def group_transactions_by_time (transactions : List Tx) (window_minutes : Int) :
    List (Int × List Tx) :=
  (firstOccur (transactions.map (fun t => t.timestamp.tdiv (window_minutes * 60)))).map
    (fun k => (k, transactions.filter (fun t => t.timestamp.tdiv (window_minutes * 60) == k)))

/-- A key of the `all_groups` dictionary in
`reconcile_with_corrections`: either a ledger minute bucket (the
`"YYYY-MM-DD HH:MM"` string, represented by the minute number
`timestamp.fdiv 60`) or a `tx_id` key merged in from the
blockchain-only groups. -/
inductive ClusterKey where
  | minute (m : Int)
  | txid (s : String)
deriving Repr, DecidableEq

/-- The minute bucket of a UTC timestamp: `strftime("%Y-%m-%d %H:%M")`
identifies exactly the floor of the timestamp to the minute. -/
def minuteOf (t : Int) : Int := t.fdiv 60

/-- `cex_groups` (`engine.py` lines 32-38): ledger records grouped by
their minute, keys in first-occurrence order. -/
def groupByMinute (txs : List Tx) : List (Int × List Tx) :=
  (firstOccur (txs.map (fun t => minuteOf t.timestamp))).map
    (fun m => (m, txs.filter (fun t => minuteOf t.timestamp == m)))

/-- The clustering phase of `reconcile_with_corrections` (`engine.py`
lines 31-77): each ledger minute bucket is extended with every observed
record within ±2 minutes (120 seconds) of the bucket's minute
(`engine.py` lines 44-59); observed records with a non-empty `tx_id`
none of whose occurrences as a `BLOCKCHAIN`-source member of a bucket
was recorded are then grouped by `tx_id` and appended (`engine.py`
lines 64-76). -/
def clusterGroups (source_a source_b : List Tx) : List (ClusterKey × List Tx) :=
  let cex_groups := groupByMinute source_a
  let all_groups := cex_groups.map (fun p =>
    (ClusterKey.minute p.1,
     p.2 ++ source_b.filter (fun b => |b.timestamp - p.1 * 60| ≤ 120)))
  let matched_blockchain_txids := ((all_groups.map Prod.snd).flatten).filterMap
    (fun t => if t.source == "BLOCKCHAIN" ∧ t.tx_id ≠ "" then some t.tx_id else none)
  let unmatched_blockchain := source_b.filter
    (fun b => b.tx_id ≠ "" ∧ ¬ matched_blockchain_txids.contains b.tx_id)
  all_groups ++
    (group_transactions_by_txid unmatched_blockchain).map (fun p => (ClusterKey.txid p.1, p.2))

/-- `reconcile_with_corrections` (`engine.py` lines 17-93), up to the
summary statistics: run the classifier over every cluster and keep the
suggestions. -/
def reconcile_with_corrections (source_a source_b : List Tx) (my_wallets : List String) :
    List Suggestion :=
  (clusterGroups source_a source_b).filterMap (fun p => detect_patterns p.2 my_wallets)

/-! ## Anomaly detector (`anomaly.py`) -/

/-- One entry of the `anomalies` list of
`AnomalyDetector.detect_anomalies`. -/
structure Finding where
  type : String
  severity : String
  message_kr : String
  tx_id : String
deriving Repr, DecidableEq

/-- The fee-anomaly mask of `anomaly.py` line 18:
`(fee > 0) & (amount > 0) & (fee > amount * 0.1)`. -/
def feeAnomalyMask (t : Tx) : Bool :=
  t.fee > 0 ∧ t.amount > 0 ∧ t.fee > t.amount * (1/10)

/-- Calendar year (UTC, proleptic Gregorian) of an epoch-second
timestamp — the embedding of Python's `tx.timestamp.year`. -/
def yearOfEpoch (t : Int) : Int :=
  let z := t.fdiv 86400 + 719468
  let era := z.fdiv 146097
  let doe := z - era * 146097
  let yoe := (doe - doe.fdiv 1460 + doe.fdiv 36524 - doe.fdiv 146096).fdiv 365
  let y := yoe + era * 400
  let doy := doe - (365 * yoe + yoe.fdiv 4 - yoe.fdiv 100)
  let mp := (5 * doy + 2).fdiv 153
  let m := mp + (if mp < 10 then 3 else -9)
  y + (if m ≤ 2 then 1 else 0)

/-- The `TAX_YEAR` constant of `anomaly.py` line 47. -/
def TAX_YEAR : Int := 2025

/-- `AnomalyDetector.detect_anomalies` (`anomaly.py` lines 10-61):
fee anomalies in input order, then one duplicate-identifier finding per
distinct duplicated non-empty `tx_id` in first-occurrence order, then
one out-of-range finding per record outside the tax year. -/
def detect_anomalies (transactions : List Tx) : List Finding :=
  let feeFindings := (transactions.filter feeAnomalyMask).map (fun t =>
    ⟨"FEE_ANOMALY", "HIGH", "수수료가 거래금액의 10%를 초과합니다", t.tx_id⟩)
  let validIds := (transactions.filter (fun t => t.tx_id ≠ "")).map (fun t => t.tx_id)
  let dupFindings := (firstOccur (validIds.filter (fun s => validIds.count s ≥ 2))).map
    (fun s => (⟨"DUPLICATE_TXID", "CRITICAL", "동일한 거래ID로 중복 거래가 발견되었습니다", s⟩ : Finding))
  let rangeFindings := (transactions.filter (fun t => yearOfEpoch t.timestamp ≠ TAX_YEAR)).map
    (fun t => (⟨"OUT_OF_RANGE", "MEDIUM",
      toString TAX_YEAR ++ "년 과세연도 외 거래가 포함되어 있습니다 (" ++
      toString (yearOfEpoch t.timestamp) ++ ")", t.tx_id⟩ : Finding))
  feeFindings ++ dupFindings ++ rangeFindings

/-! ## Matching engine (`ReconciliationEngine.reconcile`, `engine.py`
lines 115-209).  Source B is carried as an indexed list (the DataFrame
row index is the position in `source_b`); `matched_indices_b` is the
list of consumed indices. -/

/-- One entry of the `matched` list: the A row, the B row, the B row's
index, the confidence and the match tier. -/
structure MatchRec where
  source_a : Tx
  source_b : Tx
  bIdx : Nat
  confidence : Rat
  match_type : String
deriving Repr, DecidableEq

/-- One entry of the `conflicts` list (`source_b` is always `None`
there). -/
structure Conflict where
  source_a : Tx
  issue : String
deriving Repr, DecidableEq

/-- Tier 1 (`engine.py` line 147): `df_b[df_b['tx_id'] == row_a['tx_id']]`
followed by `.iloc[0]` — the first B row with that identifier,
consumed or not. -/
def exactFind (txid : String) (bs : List (Nat × Tx)) : Option (Nat × Tx) :=
  bs.find? (fun p => p.2.tx_id == txid)

/-- The ±30-minute candidate window of tier 2 (`engine.py` lines
161-167), both ends inclusive. -/
def inWindow (ta tb : Int) : Bool := |ta - tb| ≤ 1800

/-- One iteration of the tier-2 candidate loop (`engine.py` lines
174-185): skip when the A amount is zero, require
`deviation ≤ 0.001`, score `1 - deviation*100`, keep the incumbent on
ties (strict `>`). -/
def fuzzyStep (aAmt : Rat) (acc : Option (Nat × Tx) × Rat) (p : Nat × Tx) :
    Option (Nat × Tx) × Rat :=
  if aAmt = 0 then acc
  else
    let deviation := |aAmt - p.2.amount| / |aAmt|
    if deviation ≤ 1/1000 then
      let confidence := 1 - deviation * 100
      if confidence > acc.2 then (some p, confidence) else acc
    else acc

/-- The tier-2 candidate loop: fold `fuzzyStep` over the candidates
from the initial accumulator `(best_match, best_confidence) = (None, 0.0)`. -/
def fuzzyLoop (aAmt : Rat) : List (Nat × Tx) → Option (Nat × Tx) × Rat →
    Option (Nat × Tx) × Rat
  | [], acc => acc
  | p :: rest, acc => fuzzyLoop aAmt rest (fuzzyStep aAmt acc p)

/-- Tier 1 for one A record (`engine.py` lines 146-148): only a record
with a non-empty identifier is looked up. -/
def exactStep (bs : List (Nat × Tx)) (a : Tx) : Option (Nat × Tx) :=
  if a.tx_id ≠ "" then exactFind a.tx_id bs else none

/-- Tier 2 for one A record (`engine.py` lines 159-185): run the
candidate loop over the unconsumed B records inside the ±30-minute
window, starting from `(None, 0.0)`. -/
def fuzzyBest (bs : List (Nat × Tx)) (consumed : List Nat) (a : Tx) :
    Option (Nat × Tx) × Rat :=
  fuzzyLoop a.amount
    (bs.filter (fun p => inWindow a.timestamp p.2.timestamp ∧ ¬ consumed.contains p.1))
    (none, 0)

/-- The decision the loop body of `reconcile` (`engine.py` lines
143-203) takes for one A record: `some (i, b, confidence, tier)` when a
match is appended (consuming B index `i`), `none` when the record
becomes a conflict.  Tier 1 searches all of B (consumed or not); tier 2
searches only unconsumed B records inside the time window and accepts
the best score when it reaches 0.9. -/
def stepA (bs : List (Nat × Tx)) (consumed : List Nat) (a : Tx) :
    Option (Nat × Tx × Rat × String) :=
  match exactStep bs a with
  | some (i, b) => some (i, b, 1, "EXACT_TXID")
  | none =>
    match fuzzyBest bs consumed a with
    | (some (i, b), conf) =>
      if conf ≥ 9/10 then some (i, b, conf, "FUZZY_TIME_AMOUNT") else none
    | (none, _) => none

/-- The per-A-record loop of `reconcile` (`engine.py` lines 143-203),
returning `(matched, conflicts, matched_indices_b)`. -/
def reconcileLoop (bs : List (Nat × Tx)) : List Tx → List Nat →
    List MatchRec × List Conflict × List Nat
  | [], consumed => ([], [], consumed)
  | a :: rest, consumed =>
    match stepA bs consumed a with
    | some (i, b, conf, tier) =>
      let r := reconcileLoop bs rest (i :: consumed)
      (⟨a, b, i, conf, tier⟩ :: r.1, r.2.1, r.2.2)
    | none =>
      let r := reconcileLoop bs rest consumed
      (r.1, ⟨a, "MISSING_IN_BLOCKCHAIN"⟩ :: r.2.1, r.2.2)

/-- `ReconciliationEngine.reconcile` (`engine.py` lines 115-209):
returns `(matched, conflicts, missing_in_a)`, the last component being
the indexed B rows never consumed (the source materialises this set in
unspecified order; it is listed here in B order — all statements about
it are membership statements). -/
def reconcile (source_a source_b : List Tx) :
    List MatchRec × List Conflict × List (Nat × Tx) :=
  if source_a = [] then ([], [], source_b.enum)
  else if source_b = [] then ([], [], [])
  else
    let r := reconcileLoop source_b.enum source_a []
    (r.1, r.2.1, source_b.enum.filter (fun p => ¬ r.2.2.contains p.1))

/-! ## Derived predicates used in theorem statements -/

/-- The eligibility/score function implicit in the tier-2 candidate
loop: `some score` when the A amount is non-zero and the relative
deviation is within 0.1%, `none` otherwise. -/
def eligScore (aAmt : Rat) (b : Tx) : Option Rat :=
  if aAmt = 0 then none
  else if |aAmt - b.amount| / |aAmt| ≤ 1/1000 then
    some (1 - (|aAmt - b.amount| / |aAmt|) * 100)
  else none

/-- The lowercase hexadecimal alphabet. -/
def isLowerHexChar (c : Char) : Bool :=
  ("0123456789abcdef".toList).contains c

/-! ## Concrete records used by counterexamples and witnesses -/

/-- A transaction with the given timestamp, amount, identifier,
activity label and source; fee 0, asset BTC, empty metadata. -/
def sampleTx (t : Int) (amt : Rat) (txid ty src : String) : Tx :=
  ⟨t, "BTC", amt, 0, txid, ty, src, []⟩

/-- Two ledger records sharing the identifier `"x"`. -/
def exA1 : Tx := sampleTx 0 1 "x" "Withdrawal" "CEX"

/-- Second ledger record with the same identifier `"x"`. -/
def exA2 : Tx := sampleTx 0 2 "x" "Withdrawal" "CEX"

/-- The single observed record with identifier `"x"`. -/
def exB1 : Tx := sampleTx 0 1 "x" "Send" "BLOCKCHAIN"

/-- A ledger record for the empty-observed-side case. -/
def exC2a : Tx := sampleTx 0 1 "y" "Deposit" "CEX"

/-- Fuzzy-tier scenario: the ledger record (amount 1, t = 0, no id). -/
def exC3a : Tx := sampleTx 0 1 "" "Withdrawal" "CEX"

/-- Observed record 30 minutes and 1 second away. -/
def exC3far : Tx := sampleTx 1801 1 "" "Deposit" "BLOCKCHAIN"

/-- Observed record 29 minutes away with exactly 0.1% amount deviation. -/
def exC3ok : Tx := sampleTx 1740 (1001/1000) "" "Deposit" "BLOCKCHAIN"

/-- Observed record 29 minutes away with 0.11% amount deviation. -/
def exC3bad : Tx := sampleTx 1740 (10011/10000) "" "Deposit" "BLOCKCHAIN"

/-- The fuzzy match produced by `reconcile [exC3a] [exC3ok]`. -/
def exC3match : MatchRec := ⟨exC3a, exC3ok, 0, 9/10, "FUZZY_TIME_AMOUNT"⟩

/-- Bulk-mint cluster: the single outgoing record. -/
def exC4w : Tx := sampleTx 0 (-1/100) "" "Withdrawal" "CEX"

/-- Bulk-mint cluster: first dust deposit (546 sats). -/
def exC4d1 : Tx := sampleTx 1 (546/100000000) "" "Deposit" "BLOCKCHAIN"

/-- Bulk-mint cluster: second dust deposit. -/
def exC4d2 : Tx := sampleTx 2 (546/100000000) "" "Deposit" "BLOCKCHAIN"

/-- Bulk-mint cluster: third dust deposit. -/
def exC4d3 : Tx := sampleTx 3 (546/100000000) "" "Deposit" "BLOCKCHAIN"

/-- An observed record with empty identifier far from every ledger
minute (timestamp 99999 s). -/
def exC5b : Tx := sampleTx 99999 1 "" "Deposit" "BLOCKCHAIN"

/-- A ledger record at minute 0 for the C5 witness. -/
def exC5a : Tx := sampleTx 0 1 "" "Buy" "CEX"

/-- Ledger record at minute 0. -/
def exC6a1 : Tx := sampleTx 0 1 "" "Buy" "CEX"

/-- Ledger record at minute 2. -/
def exC6a2 : Tx := sampleTx 120 1 "" "Sell" "CEX"

/-- Observed record at t = 60 s, within ±2 minutes of both minutes 0
and 2. -/
def exC6b : Tx := sampleTx 60 1 "bb" "Deposit" "BLOCKCHAIN"

/-- A record with negative amount and a fee exceeding 10% of its
absolute amount. -/
def exC9 : Tx := ⟨1735689600, "BTC", -1, 1, "t1", "Withdrawal", "CEX", []⟩

/-- A cluster whose labels are all outside
{Withdrawal, Send, Deposit, Receive}. -/
def exC10 : List Tx :=
  [sampleTx 0 1 "" "Buy" "CEX", sampleTx 0 (-1) "" "Sell" "CEX",
   sampleTx 0 2 "" "Trade" "CEX"]

/-! ## Helper lemmas -/

theorem mem_firstOccur {α : Type} [DecidableEq α] (l : List α) (x : α) :
    x ∈ firstOccur l ↔ x ∈ l := by
  induction l with
  | nil => simp [firstOccur]
  | cons k rest ih =>
    simp only [firstOccur, List.mem_cons, List.mem_filter]
    constructor
    · rintro (rfl | ⟨hx, _⟩)
      · exact Or.inl rfl
      · exact Or.inr (ih.mp hx)
    · rintro (rfl | hx)
      · exact Or.inl rfl
      · by_cases hxk : x = k
        · exact Or.inl hxk
        · exact Or.inr ⟨ih.mpr hx, by simpa using hxk⟩

theorem nodup_firstOccur {α : Type} [DecidableEq α] (l : List α) :
    (firstOccur l).Nodup := by
  induction l with
  | nil => simp [firstOccur]
  | cons k rest ih =>
    simp only [firstOccur, List.nodup_cons]
    refine ⟨fun hk => ?_, ih.filter _⟩
    have := (List.mem_filter.mp hk).2
    simp at this

theorem lowerHex_sub (c : Char) (h : isLowerHexChar c = true) : isHexChar c = true := by
  have hall : ("0123456789abcdef".toList).all isHexChar = true := by decide
  exact List.all_eq_true.mp hall c (by simpa [isLowerHexChar] using h)

/-! ## Claim theorems -/

unseal Rat.mul Rat.inv in
/-- C8: the classifier's dust predicate holds exactly when the
absolute amount is at most 0.00001; amount exactly 0.00001 is dust and
0.0000101 is not. -/
theorem is_dust_boundary :
    (∀ a : Rat, is_dust a = true ↔ |a| ≤ 1/100000) ∧
    is_dust (1/100000) = true ∧ is_dust (101/10000000) = false := by
  refine ⟨fun a => ?_, by decide, by decide⟩
  simp [is_dust, dustMax]

/-- C10: a cluster none of whose records carries one of the exact
labels Withdrawal, Send, Deposit, Receive yields no suggestion. -/
theorem classifier_ignores_unlabeled (g : List Tx) (mw : List String)
    (h : ∀ t ∈ g, t.tx_type ∉ (["Withdrawal", "Send", "Deposit", "Receive"] : List String)) :
    detect_patterns g mw = none := by
  have hw : withdrawalsOf g = [] := by
    simp only [withdrawalsOf]
    rw [List.filter_eq_nil_iff]
    intro t ht
    have ht' := h t ht
    simp only [List.mem_cons, List.not_mem_nil] at ht'
    push_neg at ht'
    simp [ht'.1, ht'.2.1]
  have hd : depositsOf g = [] := by
    simp only [depositsOf]
    rw [List.filter_eq_nil_iff]
    intro t ht
    have ht' := h t ht
    simp only [List.mem_cons, List.not_mem_nil] at ht'
    push_neg at ht'
    simp [ht'.2.2.1, ht'.2.2.2]
  simp [detect_patterns, detect_bulk_mint_pattern, detect_mint_buy_pattern,
    detect_self_transfer_pattern, detect_gas_fee_pattern, detect_sale_pattern, hw, hd]

/-- Witness for C10 at a cluster labeled Buy / Sell / Trade. -/
theorem classifier_ignores_unlabeled_witness : detect_patterns exC10 [] = none :=
  classifier_ignores_unlabeled exC10 []
    (by intro t ht; fin_cases ht <;> simp [sampleTx])

/-- C7: the verification link exists iff the identifier is 64
characters, entirely hexadecimal and not CEX-synthesized; any
identifier failing the length or hex test or matching a synthetic
pattern yields no link, and every 64-character lowercase-hex
identifier yields a link. -/
theorem ordiscan_link_spec :
    (∀ s : String, (get_ordiscan_link s).isSome = true ↔
      (s.toList.length = 64 ∧ s.toList.all isHexChar = true ∧ isSyntheticTxid s = false)) ∧
    (∀ s : String, s.toList.length ≠ 64 → get_ordiscan_link s = none) ∧
    (∀ s : String, isSyntheticTxid s = true → get_ordiscan_link s = none) ∧
    (∀ s : String, s.toList.length = 64 → s.toList.all isLowerHexChar = true →
      (get_ordiscan_link s).isSome = true) := by
  have part1 : ∀ s : String, (get_ordiscan_link s).isSome = true ↔
      (s.toList.length = 64 ∧ s.toList.all isHexChar = true ∧ isSyntheticTxid s = false) := by
    intro s
    by_cases h1 : s = ""
    · subst h1; simp [get_ordiscan_link]
    · by_cases h2 : isSyntheticTxid s = true
      · simp [get_ordiscan_link, h1, h2]
      · replace h2 : isSyntheticTxid s = false := by simpa using h2
        by_cases h3 : s.toList.length = 64 ∧ s.toList.all isHexChar = true
        · simp [get_ordiscan_link, h1, h2, h3]
        · simp only [not_and_or] at h3
          rcases h3 with h3 | h3 <;>
            simp [get_ordiscan_link, h1, h2, h3]
  refine ⟨part1, fun s hlen => ?_, fun s hsyn => ?_, fun s hlen hlow => ?_⟩
  · cases hgo : get_ordiscan_link s with
    | none => rfl
    | some v =>
      have := ((part1 s).mp (by rw [hgo]; rfl)).1
      exact absurd this hlen
  · cases hgo : get_ordiscan_link s with
    | none => rfl
    | some v =>
      have := ((part1 s).mp (by rw [hgo]; rfl)).2.2
      simp [hsyn] at this
  · have hlow' : ∀ c ∈ s.toList, isLowerHexChar c = true := List.all_eq_true.mp hlow
    have hhex : s.toList.all isHexChar = true :=
      List.all_eq_true.mpr (fun c hc => lowerHex_sub c (hlow' c hc))
    have hsyn : isSyntheticTxid s = false := by
      have nounder : ∀ c ∈ s.toList, c ≠ '_' := by
        intro c hc heq
        have := hlow' c hc
        rw [heq] at this
        exact absurd this (by decide)
      have noX : ∀ c ∈ s.toList, c ≠ 'X' := by
        intro c hc heq
        have := hlow' c hc
        rw [heq] at this
        exact absurd this (by decide)
      have noC : ∀ c ∈ s.toList, c ≠ 'C' := by
        intro c hc heq
        have := hlow' c hc
        rw [heq] at this
        exact absurd this (by decide)
      simp only [isSyntheticTxid, Bool.or_eq_false_iff]
      refine ⟨⟨?_, ?_⟩, ?_⟩
      · rw [← Bool.not_eq_true, List.isPrefixOf_iff_prefix]
        intro hp
        exact noX 'X' (hp.subset (by decide)) rfl
      · rw [← Bool.not_eq_true, List.isPrefixOf_iff_prefix]
        intro hp
        exact noC 'C' (hp.subset (by decide)) rfl
      · rw [← Bool.not_eq_true]
        intro hc
        have hc' : '_' ∈ List.take 20 s.toList := by simpa using hc
        exact nounder '_' (List.take_subset 20 s.toList hc') rfl
    exact (part1 s).mpr ⟨hlen, hhex, hsyn⟩

/-- Witness for C7: a concrete 64-character lowercase-hex identifier
yields a link; a 63-character one does not. -/
theorem ordiscan_link_spec_witness :
    (get_ordiscan_link (String.mk (List.replicate 64 'a'))).isSome = true ∧
    get_ordiscan_link (String.mk (List.replicate 63 'a')) = none :=
  ⟨ordiscan_link_spec.2.2.2 (String.mk (List.replicate 64 'a')) (by decide) (by decide),
   ordiscan_link_spec.2.1 (String.mk (List.replicate 63 'a')) (by decide)⟩

/-- C4: rules are evaluated in the fixed order BULK_MINT, MINT_BUY,
SELF_TRANSFER, GAS_FEE, SALE; the first rule that fires wins, none
firing yields no suggestion; and every cluster with exactly one
outgoing record and three dust incoming records yields BULK_MINT
(confidence 0.95, severity HIGH, three IGNORE corrections and one
CHANGE_TO_TRADE correction with received quantity 3), never MINT_BUY. -/
theorem detect_patterns_priority :
    (∀ g mw, (detect_bulk_mint_pattern g).isSome = true →
      detect_patterns g mw = detect_bulk_mint_pattern g) ∧
    (∀ g mw, detect_bulk_mint_pattern g = none →
      (detect_mint_buy_pattern g).isSome = true →
      detect_patterns g mw = detect_mint_buy_pattern g) ∧
    (∀ g mw, detect_bulk_mint_pattern g = none → detect_mint_buy_pattern g = none →
      (detect_self_transfer_pattern g).isSome = true →
      detect_patterns g mw = detect_self_transfer_pattern g) ∧
    (∀ g mw, detect_bulk_mint_pattern g = none → detect_mint_buy_pattern g = none →
      detect_self_transfer_pattern g = none → (detect_gas_fee_pattern g).isSome = true →
      detect_patterns g mw = detect_gas_fee_pattern g) ∧
    (∀ g mw, detect_bulk_mint_pattern g = none → detect_mint_buy_pattern g = none →
      detect_self_transfer_pattern g = none → detect_gas_fee_pattern g = none →
      detect_patterns g mw = detect_sale_pattern g) ∧
    (∀ g mw w d1 d2 d3, withdrawalsOf g = [w] → depositsOf g = [d1, d2, d3] →
      is_dust d1.amount = true → is_dust d2.amount = true → is_dust d3.amount = true →
      (detect_patterns g mw).map (fun s =>
          (s.pattern, s.confidence, s.severity, s.corrections.map (fun c => c.action),
           s.corrections.map (fun c => c.received_quantity))) =
        some ("BULK_MINT", 19/20, "HIGH",
          ["IGNORE", "IGNORE", "IGNORE", "CHANGE_TO_TRADE"], [0, 0, 0, 3])) := by
  refine ⟨?_, ?_, ?_, ?_, ?_, ?_⟩
  · intro g mw h
    obtain ⟨p, hp⟩ := Option.isSome_iff_exists.mp h
    simp [detect_patterns, hp]
  · intro g mw h1 h
    obtain ⟨p, hp⟩ := Option.isSome_iff_exists.mp h
    simp [detect_patterns, h1, hp]
  · intro g mw h1 h2 h
    obtain ⟨p, hp⟩ := Option.isSome_iff_exists.mp h
    simp [detect_patterns, h1, h2, hp]
  · intro g mw h1 h2 h3 h
    obtain ⟨p, hp⟩ := Option.isSome_iff_exists.mp h
    simp [detect_patterns, h1, h2, h3, hp]
  · intro g mw h1 h2 h3 h4
    simp only [detect_patterns, h1, h2, h3, h4]
    cases detect_sale_pattern g <;> rfl
  · intro g mw w d1 d2 d3 hw hd h1 h2 h3
    have hbulk : detect_patterns g mw = detect_bulk_mint_pattern g := by
      simp only [detect_patterns, detect_bulk_mint_pattern, hw, hd]
      simp [h1, h2, h3]
    rw [hbulk]
    simp only [detect_bulk_mint_pattern, hw, hd]
    simp [h1, h2, h3, mkSimpleCorrection, List.enum, List.enumFrom]

unseal Rat.mul Rat.inv in
/-- Witness for C4 at the concrete bulk-mint cluster. -/
theorem detect_patterns_priority_witness :
    (detect_patterns [exC4w, exC4d1, exC4d2, exC4d3] []).map (fun s =>
        (s.pattern, s.confidence, s.severity, s.corrections.map (fun c => c.action),
         s.corrections.map (fun c => c.received_quantity))) =
      some ("BULK_MINT", 19/20, "HIGH",
        ["IGNORE", "IGNORE", "IGNORE", "CHANGE_TO_TRADE"], [0, 0, 0, 3]) :=
  detect_patterns_priority.2.2.2.2.2 [exC4w, exC4d1, exC4d2, exC4d3] []
    exC4w exC4d1 exC4d2 exC4d3 (by decide) (by decide) (by decide) (by decide) (by decide)

unseal Rat.mul Rat.inv in
/-- C9 counterexample: a record with amount −1 and fee 1 satisfies the
claim's condition (fee and amount nonzero, fee > 0.1·|amount|) yet
`detect_anomalies` emits nothing for it, because the source mask
requires `amount > 0`. -/
theorem fee_anomaly_counterexample :
    detect_anomalies [exC9] = [] ∧
    exC9.fee ≠ 0 ∧ exC9.amount ≠ 0 ∧ exC9.fee > |exC9.amount| * (1/10) := by
  refine ⟨by decide, by decide, by decide, by decide⟩

/-- C9 amended: a FEE_ANOMALY finding is emitted for exactly the
records with `fee > 0`, `amount > 0` and `fee > amount · 0.1`; records
with negative amount are never flagged. -/
theorem fee_anomaly_rule :
    (∀ ts : List Tx, (detect_anomalies ts).filter (fun f => f.type == "FEE_ANOMALY") =
      (ts.filter feeAnomalyMask).map (fun t =>
        ⟨"FEE_ANOMALY", "HIGH", "수수료가 거래금액의 10%를 초과합니다", t.tx_id⟩)) ∧
    (∀ t : Tx, feeAnomalyMask t = true ↔
      (0 < t.fee ∧ 0 < t.amount ∧ t.amount * (1/10) < t.fee)) ∧
    (∀ t : Tx, t.amount < 0 → feeAnomalyMask t = false) := by
  refine ⟨?_, ?_, ?_⟩
  · intro ts
    simp only [detect_anomalies, List.filter_append, List.filter_map]
    simp [Function.comp_def,
      (by decide : (("DUPLICATE_TXID" == "FEE_ANOMALY") = false)),
      (by decide : (("OUT_OF_RANGE" == "FEE_ANOMALY") = false))]
  · intro t
    simp [feeAnomalyMask]
  · intro t h
    simp only [feeAnomalyMask, decide_eq_false_iff_not]
    rintro ⟨-, h2, -⟩
    exact absurd h2 (not_lt.mpr h.le)

/-- C2 counterexample: with a non-empty ledger side and an empty
observed side, `reconcile` returns three empty collections, so the
ledger record surfaces in neither `matched` nor `conflicts` — in
particular `conflicts` is not "all of A". -/
theorem reconcile_empty_b_counterexample :
    reconcile [exC2a] [] = ([], [], []) ∧ [exC2a] ≠ ([] : List Tx) :=
  ⟨by decide, by decide⟩

/-- C2 amended: an empty ledger side yields no matches, no conflicts
and all of B as missing-from-ledger; a non-empty ledger side with an
empty observed side yields three empty collections (the A records are
dropped, not returned as conflicts); neither case raises an error
(`reconcile` is a total function). -/
theorem reconcile_empty_sides :
    (∀ lB : List Tx, reconcile [] lB = ([], [], lB.enum)) ∧
    (∀ lA : List Tx, lA ≠ [] → reconcile lA [] = ([], [], [])) := by
  constructor
  · intro lB
    simp [reconcile]
  · intro lA h
    simp [reconcile, h]

/-- Witness for C2 at a concrete non-empty ledger list. -/
theorem reconcile_empty_sides_witness : reconcile [exC2a] [] = ([], [], []) :=
  reconcile_empty_sides.2 [exC2a] (by decide)

/-- Witness for C9: the negative-amount record is never flagged. -/
theorem fee_anomaly_rule_witness : feeAnomalyMask exC9 = false :=
  fee_anomaly_rule.2.2 exC9 (by decide)

/-- C5 counterexample: with no ledger records at all, an observed
record with an empty identifier is attached to no cluster — the
clustering output is empty, so the record is dropped rather than kept
as a singleton 5-minute-bucket cluster. -/
theorem cluster_drop_counterexample :
    clusterGroups [] [exC5b] = [] ∧ exC5b.tx_id = "" :=
  ⟨by decide, rfl⟩

/-- C5 amended: an OBSERVED record with an empty identifier that lies
outside the ±2-minute window of every ledger minute bucket appears in
no cluster at all — it is dropped from clustering (the 5-minute
time-bucket fallback defined in the source is never invoked). -/
theorem cluster_dropped_records (as bs : List Tx) (b : Tx)
    (hid : b.tx_id = "") (hnas : b ∉ as)
    (hfar : ∀ a ∈ as, ¬ (|b.timestamp - (minuteOf a.timestamp) * 60| ≤ 120)) :
    ∀ p ∈ clusterGroups as bs, b ∉ p.2 := by
  intro p hp hbp
  simp only [clusterGroups, groupByMinute] at hp
  rcases List.mem_append.mp hp with hp1 | hp2
  · obtain ⟨q, hq, rfl⟩ := List.mem_map.mp hp1
    obtain ⟨m, hm, rfl⟩ := List.mem_map.mp hq
    rcases List.mem_append.mp hbp with hb1 | hb2
    · exact hnas (List.mem_filter.mp hb1).1
    · have hw := (List.mem_filter.mp hb2).2
      simp only [decide_eq_true_eq] at hw
      have hm' : m ∈ as.map (fun t => minuteOf t.timestamp) :=
        (mem_firstOccur _ m).mp hm
      obtain ⟨a, ha, rfl⟩ := List.mem_map.mp hm'
      exact hfar a ha hw
  · obtain ⟨q, hq, rfl⟩ := List.mem_map.mp hp2
    obtain ⟨k, hk, rfl⟩ := List.mem_map.mp (by
      simpa only [group_transactions_by_txid] using hq)
    have hb' := (List.mem_filter.mp hbp).1
    have hcond := (List.mem_filter.mp hb').2
    simp only [decide_eq_true_eq] at hcond
    exact hcond.1 hid

/-- Witness for C5: the concrete dropped record is in no cluster of a
concrete clustering run. -/
theorem cluster_dropped_records_witness :
    (clusterGroups [exC5a] [exC5b]).all (fun p : ClusterKey × List Tx => decide (exC5b ∉ p.2)) = true := by
  rw [List.all_eq_true]
  intro p hp
  exact decide_eq_true
    (cluster_dropped_records [exC5a] [exC5b] exC5b rfl (by decide) (by decide) p hp)

/-- C6 counterexample: an observed record 60 s away from two distinct
ledger minutes is attached to both minute clusters, so the clustering
output is not a partition of the input union. -/
theorem cluster_overlap_counterexample :
    ((clusterGroups [exC6a1, exC6a2] [exC6b]).filter
      (fun p : ClusterKey × List Tx => decide (exC6b ∈ p.2))).length = 2 := by decide

theorem countP_congr_mem {α : Type} (l : List α) (p q : α → Bool)
    (h : ∀ a ∈ l, p a = q a) : l.countP p = l.countP q := by
  induction l with
  | nil => rfl
  | cons x xs ih =>
    rw [List.countP_cons, List.countP_cons, h x (List.mem_cons_self x xs),
      ih (fun a ha => h a (List.mem_cons_of_mem _ ha))]

theorem countP_eq_one_of_nodup {α : Type} [DecidableEq α] (l : List α) (c : α)
    (hnd : l.Nodup) (hc : c ∈ l) : l.countP (fun m => decide (m = c)) = 1 := by
  induction l with
  | nil => cases hc
  | cons x xs ih =>
    rcases List.mem_cons.mp hc with rfl | hcx
    · rw [List.countP_cons_of_pos _ _ (by simp)]
      have hz : xs.countP (fun m => decide (m = c)) = 0 := by
        rw [List.countP_eq_zero]
        intro a ha
        simp only [decide_eq_true_eq]
        rintro rfl
        exact (List.nodup_cons.mp hnd).1 ha
      rw [hz]
    · have hxc : x ≠ c := by
        rintro rfl
        exact (List.nodup_cons.mp hnd).1 hcx
      rw [List.countP_cons_of_neg _ _ (by simp [hxc])]
      exact ih (List.nodup_cons.mp hnd).2 hcx

theorem countP_txid_zero (a : Tx) (l : List Tx) (h : a ∉ l) :
    ((group_transactions_by_txid l).map
        (fun p => (ClusterKey.txid p.1, p.2))).countP
      (fun p : ClusterKey × List Tx => decide (a ∈ p.2)) = 0 := by
  rw [List.countP_eq_zero]
  intro p hp
  obtain ⟨q, hq, rfl⟩ := List.mem_map.mp hp
  obtain ⟨k, hk, rfl⟩ := List.mem_map.mp (by
    simpa only [group_transactions_by_txid] using hq)
  simp only [decide_eq_true_eq]
  intro hain
  exact h (List.mem_filter.mp hain).1

theorem countP_minute_part (as bs : List Tx) (a : Tx) (ha : a ∈ as) (hnb : a ∉ bs) :
    (((firstOccur (as.map (fun t => minuteOf t.timestamp))).map
        (fun m => (m, as.filter (fun t => minuteOf t.timestamp == m)))).map
      (fun p => (ClusterKey.minute p.1,
        p.2 ++ bs.filter (fun b => |b.timestamp - p.1 * 60| ≤ 120)))).countP
      (fun p : ClusterKey × List Tx => decide (a ∈ p.2)) = 1 := by
  rw [List.countP_map, List.countP_map]
  refine Eq.trans
    (countP_congr_mem _ _ (fun m => decide (m = minuteOf a.timestamp)) ?_) ?_
  · intro m hm
    simp only [Function.comp_apply]
    rw [decide_eq_decide]
    constructor
    · intro hin
      rcases List.mem_append.mp hin with h1 | h2
      · have hcond := (List.mem_filter.mp h1).2
        exact (show minuteOf a.timestamp = m by simpa using hcond).symm
      · exact absurd (List.mem_filter.mp h2).1 hnb
    · rintro rfl
      exact List.mem_append.mpr (Or.inl (List.mem_filter.mpr ⟨ha, by simp⟩))
  · refine countP_eq_one_of_nodup _ _ (nodup_firstOccur _) ?_
    exact (mem_firstOccur _ _).mpr (List.mem_map.mpr ⟨a, ha, rfl⟩)

/-- C6 amended: the clustering phase is not a partition of the union —
an observed record near two ledger minutes is attached to both
clusters (see the counterexample) — but every LEDGER record appears in
exactly one cluster, namely the bucket of its own minute. -/
theorem cluster_ledger_exactly_once (as bs : List Tx) (a : Tx)
    (ha : a ∈ as) (hnb : a ∉ bs) :
    (clusterGroups as bs).countP (fun p : ClusterKey × List Tx => decide (a ∈ p.2)) = 1 ∧
    (∀ p ∈ clusterGroups as bs, a ∈ p.2 →
      p.1 = ClusterKey.minute (minuteOf a.timestamp)) := by
  have hbs_part : ∀ (l : List Tx) (pred : Tx → Bool), a ∈ l.filter pred → a ∈ l :=
    fun l pred h => (List.mem_filter.mp h).1
  constructor
  · simp only [clusterGroups, groupByMinute]
    rw [List.countP_append,
      countP_txid_zero a _ (fun h' => hnb (List.mem_filter.mp h').1),
      Nat.add_zero]
    exact countP_minute_part as bs a ha hnb
  · intro p hp hap
    simp only [clusterGroups, groupByMinute] at hp
    rcases List.mem_append.mp hp with hp1 | hp2
    · obtain ⟨q, hq, rfl⟩ := List.mem_map.mp hp1
      obtain ⟨m, hm, rfl⟩ := List.mem_map.mp hq
      rcases List.mem_append.mp hap with h1 | h2
      · have := (List.mem_filter.mp h1).2
        simp only [beq_iff_eq] at this
        simp [this]
      · exact absurd (hbs_part _ _ h2) hnb
    · obtain ⟨q, hq, rfl⟩ := List.mem_map.mp hp2
      obtain ⟨k, hk, rfl⟩ := List.mem_map.mp (by
        simpa only [group_transactions_by_txid] using hq)
      exact absurd (hbs_part _ _ (hbs_part _ _ hap)) hnb

/-- Witness for C6 at a concrete ledger record. -/
theorem cluster_ledger_exactly_once_witness :
    (clusterGroups [exC6a1] [exC6b]).countP (fun p : ClusterKey × List Tx => decide (exC6a1 ∈ p.2)) = 1 :=
  (cluster_ledger_exactly_once [exC6a1] [exC6b] exC6a1 (by decide) (by decide)).1

/-! ## Matching-engine lemmas -/

theorem fuzzyStep_eq (aAmt : Rat) (acc : Option (Nat × Tx) × Rat) (p : Nat × Tx) :
    fuzzyStep aAmt acc p =
      match eligScore aAmt p.2 with
      | none => acc
      | some s => if s > acc.2 then (some p, s) else acc := by
  unfold fuzzyStep eligScore
  by_cases h0 : aAmt = 0
  · rw [if_pos h0, if_pos h0]
  · rw [if_neg h0, if_neg h0]
    by_cases hdev : |aAmt - p.2.amount| / |aAmt| ≤ 1/1000
    · rw [if_pos hdev, if_pos hdev]
    · rw [if_neg hdev, if_neg hdev]

theorem fuzzyLoop_spec (aAmt : Rat) (cands : List (Nat × Tx)) :
    ∀ acc : Option (Nat × Tx) × Rat,
    (fuzzyLoop aAmt cands acc = acc ∧
      (∀ q ∈ cands, ∀ s, eligScore aAmt q.2 = some s → s ≤ acc.2)) ∨
    (∃ pre p post conf, cands = pre ++ p :: post ∧
      fuzzyLoop aAmt cands acc = (some p, conf) ∧
      eligScore aAmt p.2 = some conf ∧ acc.2 < conf ∧
      (∀ q ∈ pre, ∀ s, eligScore aAmt q.2 = some s → s < conf) ∧
      (∀ q ∈ post, ∀ s, eligScore aAmt q.2 = some s → s ≤ conf)) := by
  induction cands with
  | nil =>
    intro acc
    left
    exact ⟨rfl, by simp⟩
  | cons q rest ih =>
    intro acc
    have hloop : fuzzyLoop aAmt (q :: rest) acc =
        fuzzyLoop aAmt rest (fuzzyStep aAmt acc q) := rfl
    rw [hloop]
    cases hE : eligScore aAmt q.2 with
    | none =>
      have hstep : fuzzyStep aAmt acc q = acc := by rw [fuzzyStep_eq, hE]
      rw [hstep]
      rcases ih acc with ⟨heq, hbound⟩ |
        ⟨pre, p, post, conf, hsplit, hres, hp, hlt, hpre, hpost⟩
      · left
        refine ⟨heq, fun q' hq' s hs => ?_⟩
        rcases List.mem_cons.mp hq' with rfl | hq'
        · rw [hE] at hs; cases hs
        · exact hbound q' hq' s hs
      · right
        refine ⟨q :: pre, p, post, conf, by rw [hsplit, List.cons_append], hres, hp,
          hlt, fun q' hq' s hs => ?_, hpost⟩
        rcases List.mem_cons.mp hq' with rfl | hq'
        · rw [hE] at hs; cases hs
        · exact hpre q' hq' s hs
    | some sq =>
      have hstep : fuzzyStep aAmt acc q = if sq > acc.2 then (some q, sq) else acc := by
        rw [fuzzyStep_eq, hE]
      by_cases hlt0 : sq > acc.2
      · rw [hstep, if_pos hlt0]
        rcases ih (some q, sq) with ⟨heq, hbound⟩ |
          ⟨pre, p, post, conf, hsplit, hres, hp, hlt, hpre, hpost⟩
        · right
          exact ⟨[], q, rest, sq, by simp, heq, hE, hlt0, by simp,
            fun q' hq' s hs => hbound q' hq' s hs⟩
        · right
          refine ⟨q :: pre, p, post, conf, by rw [hsplit, List.cons_append], hres, hp,
            lt_trans hlt0 hlt, fun q' hq' s hs => ?_, hpost⟩
          rcases List.mem_cons.mp hq' with rfl | hq'
          · rw [hE] at hs
            injection hs with h'
            subst h'
            exact hlt
          · exact hpre q' hq' s hs
      · rw [hstep, if_neg hlt0]
        push_neg at hlt0
        rcases ih acc with ⟨heq, hbound⟩ |
          ⟨pre, p, post, conf, hsplit, hres, hp, hlt, hpre, hpost⟩
        · left
          refine ⟨heq, fun q' hq' s hs => ?_⟩
          rcases List.mem_cons.mp hq' with rfl | hq'
          · rw [hE] at hs
            injection hs with h'
            subst h'
            exact hlt0
          · exact hbound q' hq' s hs
        · right
          refine ⟨q :: pre, p, post, conf, by rw [hsplit, List.cons_append], hres, hp,
            hlt, fun q' hq' s hs => ?_, hpost⟩
          rcases List.mem_cons.mp hq' with rfl | hq'
          · rw [hE] at hs
            injection hs with h'
            subst h'
            exact lt_of_le_of_lt hlt0 hlt
          · exact hpre q' hq' s hs

theorem eligScore_some (aAmt : Rat) (b : Tx) (s : Rat)
    (h : eligScore aAmt b = some s) :
    aAmt ≠ 0 ∧ |aAmt - b.amount| / |aAmt| ≤ 1/1000 ∧
    s = 1 - (|aAmt - b.amount| / |aAmt|) * 100 ∧ 9/10 ≤ s := by
  unfold eligScore at h
  by_cases h0 : aAmt = 0
  · rw [if_pos h0] at h
    exact Option.noConfusion h
  · rw [if_neg h0] at h
    by_cases hdev : |aAmt - b.amount| / |aAmt| ≤ 1/1000
    · rw [if_pos hdev] at h
      injection h with h'
      subst h'
      refine ⟨h0, hdev, rfl, ?_⟩
      have h100 : (|aAmt - b.amount| / |aAmt|) * 100 ≤ (1/1000) * 100 :=
        mul_le_mul_of_nonneg_right hdev (by norm_num)
      linarith
    · rw [if_neg hdev] at h
      exact Option.noConfusion h

theorem fuzzyBest_some (bs : List (Nat × Tx)) (consumed : List Nat) (a : Tx)
    (i : Nat) (b : Tx) (conf : Rat)
    (h : fuzzyBest bs consumed a = (some (i, b), conf)) :
    (i, b) ∈ bs ∧ inWindow a.timestamp b.timestamp = true ∧
    ¬ (i ∈ consumed) ∧ eligScore a.amount b = some conf := by
  unfold fuzzyBest at h
  rcases fuzzyLoop_spec a.amount
      (bs.filter (fun p => inWindow a.timestamp p.2.timestamp ∧ ¬ consumed.contains p.1))
      (none, 0) with ⟨heq, -⟩ |
    ⟨pre, p, post, conf', hsplit, hres, hp, -, -, -⟩
  · rw [h] at heq
    exact absurd heq (by simp)
  · rw [h] at hres
    simp only [Prod.mk.injEq, Option.some.injEq] at hres
    obtain ⟨hpq, hcf⟩ := hres
    subst hcf
    subst hpq
    have hpmem : (i, b) ∈ bs.filter
        (fun p => inWindow a.timestamp p.2.timestamp ∧ ¬ consumed.contains p.1) := by
      rw [hsplit]
      exact List.mem_append_right pre (List.mem_cons_self _ post)
    obtain ⟨hbs, hcond⟩ := List.mem_filter.mp hpmem
    simp only [decide_eq_true_eq] at hcond
    refine ⟨hbs, hcond.1, ?_, hp⟩
    intro hic
    exact hcond.2 (by simpa using hic)

theorem stepA_mem (bs : List (Nat × Tx)) (consumed : List Nat) (a : Tx)
    (i : Nat) (b : Tx) (conf : Rat) (tier : String)
    (h : stepA bs consumed a = some (i, b, conf, tier)) : (i, b) ∈ bs := by
  cases hE : exactStep bs a with
  | some ib =>
    obtain ⟨i', b'⟩ := ib
    simp only [stepA, hE, Option.some.injEq, Prod.mk.injEq] at h
    obtain ⟨h1, h2, -, -⟩ := h
    rw [← h1, ← h2]
    have hfind : exactFind a.tx_id bs = some (i', b') := by
      by_cases hid : a.tx_id ≠ ""
      · simpa [exactStep, hid] using hE
      · simp [exactStep, hid] at hE
    exact List.mem_of_find?_eq_some hfind
  | none =>
    cases hF : fuzzyBest bs consumed a with
    | mk o c =>
      cases o with
      | none => simp [stepA, hE, hF] at h
      | some ib =>
        obtain ⟨i', b'⟩ := ib
        simp only [stepA, hE, hF] at h
        by_cases hge : c ≥ 9/10
        · rw [if_pos hge] at h
          simp only [Option.some.injEq, Prod.mk.injEq] at h
          obtain ⟨h1, h2, -, -⟩ := h
          rw [← h1, ← h2]
          exact (fuzzyBest_some bs consumed a i' b' c hF).1
        · rw [if_neg hge] at h
          exact Option.noConfusion h

theorem stepA_fuzzy (bs : List (Nat × Tx)) (consumed : List Nat) (a : Tx)
    (i : Nat) (b : Tx) (conf : Rat)
    (h : stepA bs consumed a = some (i, b, conf, "FUZZY_TIME_AMOUNT")) :
    inWindow a.timestamp b.timestamp = true ∧ ¬ (i ∈ consumed) ∧
    eligScore a.amount b = some conf ∧ 9/10 ≤ conf := by
  cases hE : exactStep bs a with
  | some ib =>
    obtain ⟨i', b'⟩ := ib
    simp only [stepA, hE, Option.some.injEq, Prod.mk.injEq] at h
    obtain ⟨-, -, -, habs⟩ := h
    exact absurd habs (by decide)
  | none =>
    cases hF : fuzzyBest bs consumed a with
    | mk o c =>
      cases o with
      | none => simp [stepA, hE, hF] at h
      | some ib =>
        obtain ⟨i', b'⟩ := ib
        simp only [stepA, hE, hF] at h
        by_cases hge : c ≥ 9/10
        · rw [if_pos hge] at h
          simp only [Option.some.injEq, Prod.mk.injEq] at h
          obtain ⟨h1, h2, h3, -⟩ := h
          obtain ⟨-, hw, hnc, hes⟩ := fuzzyBest_some bs consumed a i' b' c hF
          rw [← h1, ← h2, ← h3]
          exact ⟨hw, hnc, hes, hge⟩
        · rw [if_neg hge] at h
          exact Option.noConfusion h

theorem reconcileLoop_perm (bs : List (Nat × Tx)) (as : List Tx) :
    ∀ consumed, ((reconcileLoop bs as consumed).1.map (fun m => m.source_a) ++
      (reconcileLoop bs as consumed).2.1.map (fun c => c.source_a)).Perm as := by
  induction as with
  | nil =>
    intro consumed
    simp [reconcileLoop]
  | cons a rest ih =>
    intro consumed
    cases hS : stepA bs consumed a with
    | some r =>
      obtain ⟨i, b, conf, tier⟩ := r
      simp only [reconcileLoop, hS, List.map_cons, List.cons_append]
      exact (ih (i :: consumed)).cons a
    | none =>
      simp only [reconcileLoop, hS, List.map_cons]
      exact List.Perm.trans List.perm_middle ((ih consumed).cons a)

theorem reconcileLoop_consumed (bs : List (Nat × Tx)) (as : List Tx) :
    ∀ consumed j, (j ∈ (reconcileLoop bs as consumed).2.2 ↔
      (∃ m ∈ (reconcileLoop bs as consumed).1, m.bIdx = j) ∨ j ∈ consumed) := by
  induction as with
  | nil =>
    intro consumed j
    simp [reconcileLoop]
  | cons a rest ih =>
    intro consumed j
    cases hS : stepA bs consumed a with
    | some r =>
      obtain ⟨i, b, conf, tier⟩ := r
      simp only [reconcileLoop, hS]
      rw [ih (i :: consumed) j]
      simp only [List.mem_cons]
      constructor
      · rintro (⟨m, hm, rfl⟩ | (hji | hj))
        · exact Or.inl ⟨m, Or.inr hm, rfl⟩
        · exact Or.inl ⟨⟨a, b, i, conf, tier⟩, Or.inl rfl, hji.symm⟩
        · exact Or.inr hj
      · rintro (⟨m, (rfl | hm), rfl⟩ | hj)
        · exact Or.inr (Or.inl rfl)
        · exact Or.inl ⟨m, hm, rfl⟩
        · exact Or.inr (Or.inr hj)
    | none =>
      simp only [reconcileLoop, hS]
      exact ih consumed j

theorem reconcileLoop_partner_mem (bs : List (Nat × Tx)) (as : List Tx) :
    ∀ consumed, ∀ m ∈ (reconcileLoop bs as consumed).1, (m.bIdx, m.source_b) ∈ bs := by
  induction as with
  | nil =>
    intro consumed m hm
    simp [reconcileLoop] at hm
  | cons a rest ih =>
    intro consumed m hm
    cases hS : stepA bs consumed a with
    | some r =>
      obtain ⟨i, b, conf, tier⟩ := r
      simp only [reconcileLoop, hS] at hm
      rcases List.mem_cons.mp hm with rfl | hm'
      · exact stepA_mem bs consumed a i b conf tier hS
      · exact ih (i :: consumed) m hm'
    | none =>
      simp only [reconcileLoop, hS] at hm
      exact ih consumed m hm

theorem reconcileLoop_fuzzy_sound (bs : List (Nat × Tx)) (as : List Tx) :
    ∀ consumed, ∀ m ∈ (reconcileLoop bs as consumed).1,
      m.match_type = "FUZZY_TIME_AMOUNT" →
      inWindow m.source_a.timestamp m.source_b.timestamp = true ∧
      eligScore m.source_a.amount m.source_b = some m.confidence := by
  induction as with
  | nil =>
    intro consumed m hm
    simp [reconcileLoop] at hm
  | cons a rest ih =>
    intro consumed m hm hty
    cases hS : stepA bs consumed a with
    | some r =>
      obtain ⟨i, b, conf, tier⟩ := r
      simp only [reconcileLoop, hS] at hm
      rcases List.mem_cons.mp hm with rfl | hm'
      · have hS' : stepA bs consumed a = some (i, b, conf, "FUZZY_TIME_AMOUNT") := by
          rw [hS]
          simpa using hty
        obtain ⟨hw, -, hes, -⟩ := stepA_fuzzy bs consumed a i b conf hS'
        exact ⟨hw, hes⟩
      · exact ih (i :: consumed) m hm' hty
    | none =>
      simp only [reconcileLoop, hS] at hm
      exact ih consumed m hm hty

/-- C1 counterexample: two ledger records share the identifier `"x"`
with a single observed record; the exact-identifier tier does not skip
consumed records, so the observed record (index 0) becomes the partner
of two Matches — refuting "never as the partner of two Matches" and
"pairs an A record only with a B record not already consumed". -/
theorem match_partition_counterexample :
    ((reconcile [exA1, exA2] [exB1]).1.filter (fun m => m.bIdx == 0)).length = 2 := by
  decide

/-- C1 amended: when B is non-empty, every A record appears in exactly
one of {matched, conflicts} (as a permutation), and every B record is
either the partner of at least one Match or in missingFromLedger but
never both; however a B record may partner several Matches, because
the exact-identifier tier searches all of B including consumed records
(see the counterexample; the B-empty case is settled under C2). -/
theorem match_partition (lA lB : List Tx) (hB : lB ≠ []) :
    (((reconcile lA lB).1.map (fun m => m.source_a)) ++
      ((reconcile lA lB).2.1.map (fun c => c.source_a))).Perm lA ∧
    (∀ p ∈ lB.enum, (p ∈ (reconcile lA lB).2.2 ↔
      ¬ ∃ m ∈ (reconcile lA lB).1, m.bIdx = p.1)) ∧
    (∀ m ∈ (reconcile lA lB).1, (m.bIdx, m.source_b) ∈ lB.enum) := by
  by_cases hA : lA = []
  · subst hA
    refine ⟨by simp [reconcile], ?_, by simp [reconcile]⟩
    intro p hp
    simp [reconcile, hp]
  · have hre : reconcile lA lB =
        ((reconcileLoop lB.enum lA []).1, (reconcileLoop lB.enum lA []).2.1,
         lB.enum.filter (fun p => ¬ (reconcileLoop lB.enum lA []).2.2.contains p.1)) := by
      simp [reconcile, hA, hB]
    rw [hre]
    refine ⟨reconcileLoop_perm lB.enum lA [], ?_, reconcileLoop_partner_mem lB.enum lA []⟩
    intro p hp
    rw [List.mem_filter]
    simp only [hp, true_and, decide_eq_true_eq]
    constructor
    · intro hnc hex
      apply hnc
      have hmem : p.1 ∈ (reconcileLoop lB.enum lA []).2.2 :=
        (reconcileLoop_consumed lB.enum lA [] p.1).mpr (Or.inl hex)
      simpa using hmem
    · intro hnex hc
      have hmem : p.1 ∈ (reconcileLoop lB.enum lA []).2.2 := by simpa using hc
      rcases (reconcileLoop_consumed lB.enum lA [] p.1).mp hmem with hex | hmem'
      · exact hnex hex
      · simp at hmem'

/-- Witness for C1 at a one-element ledger and observed side. -/
theorem match_partition_witness :
    (((reconcile [exC2a] [exB1]).1.map (fun m => m.source_a)) ++
      ((reconcile [exC2a] [exB1]).2.1.map (fun c => c.source_a))).Perm [exC2a] :=
  (match_partition [exC2a] [exB1] (by decide)).1

unseal Rat.add Rat.sub Rat.mul Rat.inv in
/-- C3: a fuzzy match only pairs records whose timestamps differ by at
most 30 minutes whose relative amount deviation is at most 0.1%, with
confidence `1 − deviation·100 ≥ 0.9`; among equal-score candidates the
earliest in B's order wins (all strictly-earlier eligible candidates
score strictly less, all others at most the winner's score); records
1801 s apart never match, a 29-minute pair at exactly 0.1% deviation
matches with confidence 0.9, and the same pair at 0.11% does not. -/
theorem fuzzy_tier_spec :
    (∀ lA lB : List Tx, ∀ m ∈ (reconcile lA lB).1,
      m.match_type = "FUZZY_TIME_AMOUNT" →
      |m.source_a.timestamp - m.source_b.timestamp| ≤ 1800 ∧
      m.source_a.amount ≠ 0 ∧
      |m.source_a.amount - m.source_b.amount| / |m.source_a.amount| ≤ 1/1000 ∧
      m.confidence =
        1 - (|m.source_a.amount - m.source_b.amount| / |m.source_a.amount|) * 100 ∧
      9/10 ≤ m.confidence) ∧
    (∀ (aAmt : Rat) (cands : List (Nat × Tx)) (p : Nat × Tx) (conf : Rat),
      fuzzyLoop aAmt cands (none, 0) = (some p, conf) →
      ∃ pre post, cands = pre ++ p :: post ∧
        eligScore aAmt p.2 = some conf ∧
        (∀ q ∈ pre, ∀ s, eligScore aAmt q.2 = some s → s < conf) ∧
        (∀ q ∈ cands, ∀ s, eligScore aAmt q.2 = some s → s ≤ conf)) ∧
    (reconcile [exC3a] [exC3far]).1 = [] ∧
    (reconcile [exC3a] [exC3ok]).1.map (fun m => (m.match_type, m.confidence)) =
      [("FUZZY_TIME_AMOUNT", 9/10)] ∧
    (reconcile [exC3a] [exC3bad]).1 = [] := by
  refine ⟨?_, ?_, by decide, by decide, by decide⟩
  · intro lA lB m hm hty
    by_cases hA : lA = []
    · subst hA
      simp [reconcile] at hm
    by_cases hBe : lB = []
    · subst hBe
      simp [reconcile, hA] at hm
    have hm' : m ∈ (reconcileLoop lB.enum lA []).1 := by
      simpa [reconcile, hA, hBe] using hm
    obtain ⟨hw, hes⟩ := reconcileLoop_fuzzy_sound lB.enum lA [] m hm' hty
    obtain ⟨h0, hdev, hconf, hge⟩ := eligScore_some _ _ _ hes
    exact ⟨by simpa [inWindow] using hw, h0, hdev, hconf, hge⟩
  · intro aAmt cands p conf h
    rcases fuzzyLoop_spec aAmt cands (none, 0) with ⟨heq, -⟩ |
      ⟨pre, p', post, conf', hsplit, hres, hp, -, hpre, hpost⟩
    · rw [h] at heq
      exact absurd heq (by simp)
    · rw [h] at hres
      simp only [Prod.mk.injEq, Option.some.injEq] at hres
      obtain ⟨hpq, hcf⟩ := hres
      subst hpq
      subst hcf
      refine ⟨pre, post, hsplit, hp, hpre, ?_⟩
      intro q hq s hs
      rw [hsplit] at hq
      rcases List.mem_append.mp hq with hq | hq
      · exact le_of_lt (hpre q hq s hs)
      · rcases List.mem_cons.mp hq with rfl | hq
        · rw [hp] at hs
          injection hs with h'
          exact le_of_eq h'.symm
        · exact hpost q hq s hs

unseal Rat.add Rat.sub Rat.mul Rat.inv in
/-- Witness for C3 at the concrete fuzzy match of the 29-minute, 0.1%
deviation scenario. -/
theorem fuzzy_tier_spec_witness :
    |exC3match.source_a.timestamp - exC3match.source_b.timestamp| ≤ 1800 ∧
    exC3match.source_a.amount ≠ 0 ∧
    |exC3match.source_a.amount - exC3match.source_b.amount| /
      |exC3match.source_a.amount| ≤ 1/1000 ∧
    exC3match.confidence =
      1 - (|exC3match.source_a.amount - exC3match.source_b.amount| /
        |exC3match.source_a.amount|) * 100 ∧
    9/10 ≤ exC3match.confidence :=
  fuzzy_tier_spec.1 [exC3a] [exC3ok] exC3match (by decide) (by decide)

end CoinLedger
